import Mathlib

/-!
Verification development for the reminder-scheduling and subscription
subsystem of the budnek00f assistant-bot repository.

Time is modelled as a count of microseconds (`Nat`) on the naive local
timeline used by Python's `datetime`: days have a fixed length of
86400 seconds and day boundaries sit at multiples of `usPerDay`
(day 0 of the count is 0000-03-01 of the proleptic Gregorian calendar,
the origin of the standard civil-from-days algorithm).  All drafts in
the repository use timezone-naive datetimes, so this linear timeline is
an exact model of their datetime arithmetic and comparisons.

Stored dates travel as strings, exactly as in the SQLite-backed code:
the `strptime`/`fromisoformat`/`strftime`/`isoformat` calls of the
source are embedded as explicit string parsers and formatters below.
-/

namespace Budnek

/-! ## Time scale -/

def usPerSecond : Nat := 1000000

def usPerMinute : Nat := 60 * usPerSecond

def usPerHour : Nat := 60 * usPerMinute

def usPerDay : Nat := 24 * usPerHour

/-- Truncate to a whole second, as `datetime.replace(microsecond=0)` does. -/
def secFloor (t : Nat) : Nat := t / usPerSecond * usPerSecond

/-! ## Proleptic Gregorian calendar -/

def isLeap (y : Nat) : Bool := (y % 4 == 0 && y % 100 != 0) || y % 400 == 0

def daysInMonth (y m : Nat) : Nat :=
  if m = 2 then (if isLeap y then 29 else 28)
  else if m = 4 ∨ m = 6 ∨ m = 9 ∨ m = 11 then 30
  else 31

/-- Days since 0000-03-01 of the civil date `y-m-d` (standard algorithm). -/
def civilToDays (y m d : Nat) : Nat :=
  let y' := if m ≤ 2 then y - 1 else y
  let era := y' / 400
  let yoe := y' % 400
  let mp := if 2 < m then m - 3 else m + 9
  let doy := (153 * mp + 2) / 5 + (d - 1)
  let doe := yoe * 365 + yoe / 4 - yoe / 100 + doy
  era * 146097 + doe

/-- Civil date `(y, m, d)` of a day count (inverse of `civilToDays`). -/
def daysToCivil (z : Nat) : Nat × Nat × Nat :=
  let era := z / 146097
  let doe := z % 146097
  let yoe := (doe - doe / 1460 + doe / 36524 - doe / 146096) / 365
  let y := yoe + era * 400
  let doy := doe - (365 * yoe + yoe / 4 - yoe / 100)
  let mp := (5 * doy + 2) / 153
  let d := doy - (153 * mp + 2) / 5 + 1
  let m := if mp < 10 then mp + 3 else mp - 9
  (if m ≤ 2 then y + 1 else y, m, d)

/-! ## Decimal digits and formatting -/

def digitVal (c : Char) : Nat := c.toNat - 48

def digitsToNat (ds : List Char) : Nat := ds.foldl (fun a c => 10 * a + digitVal c) 0

/-- The character of a decimal digit. -/
def dChar (x : Nat) : Char := Char.ofNat (48 + x)

/-- Zero-padded decimal rendering, at least `width` characters wide. -/
def padNum (width n : Nat) : List Char :=
  let ds := Nat.toDigits 10 n
  List.replicate (width - ds.length) '0' ++ ds

def formatDate (z : Nat) : List Char :=
  let c := daysToCivil z
  padNum 4 c.1 ++ ('-' :: padNum 2 c.2.1) ++ ('-' :: padNum 2 c.2.2)

def formatTimeOfDay (r : Nat) : List Char :=
  padNum 2 (r / usPerHour) ++
    (':' :: padNum 2 (r % usPerHour / usPerMinute)) ++
    (':' :: padNum 2 (r % usPerMinute / usPerSecond))

/-- `strftime('%Y-%m-%d')` of an absolute time: the calendar date, the
time of day discarded. -/
def strftimeD (t : Nat) : String := String.mk (formatDate (t / usPerDay))

/-- `strftime('%Y-%m-%d %H:%M:%S')` / SQLite `datetime(...)` rendering. -/
def strftimeDT (t : Nat) : String :=
  String.mk (formatDate (t / usPerDay) ++ (' ' :: formatTimeOfDay (t % usPerDay)))

/-- `datetime.isoformat()` of a whole-second time: `YYYY-MM-DDTHH:MM:SS`. -/
def isoDT (t : Nat) : String :=
  String.mk (formatDate (t / usPerDay) ++ ('T' :: formatTimeOfDay (t % usPerDay)))

/-! ## Python string primitives used by the source -/

/-- `str.lower()` restricted to the alphabets the bot sees: ASCII letters
and the Cyrillic block the command keywords are written in. -/
def pyLowerChar (c : Char) : Char :=
  if 65 ≤ c.toNat ∧ c.toNat ≤ 90 then Char.ofNat (c.toNat + 32)
  else if 1040 ≤ c.toNat ∧ c.toNat ≤ 1071 then Char.ofNat (c.toNat + 32)
  else if c.toNat = 1025 then Char.ofNat 1105
  else c

/-- `str.strip()`: whitespace removed from both ends. -/
def pyStripList (l : List Char) : List Char :=
  ((l.dropWhile Char.isWhitespace).reverse.dropWhile Char.isWhitespace).reverse

/-- `str.split()` with no separator: split on whitespace runs, no empties. -/
def pySplitChars : List Char → List Char → List (List Char)
  | [], acc => if acc.isEmpty then [] else [acc.reverse]
  | c :: rest, acc =>
    if c.isWhitespace then
      if acc.isEmpty then pySplitChars rest [] else acc.reverse :: pySplitChars rest []
    else pySplitChars rest (c :: acc)

/-- `pat in s` for strings: substring containment. -/
def hasSub (pat : List Char) : List Char → Bool
  | [] => pat.isEmpty
  | c :: rest => pat.isPrefixOf (c :: rest) || hasSub pat rest

/-- `str.replace(pat, '')`: every non-overlapping occurrence removed,
left to right. -/
def pyReplaceAll (pat : List Char) (l : List Char) : List Char :=
  match l with
  | [] => []
  | c :: rest =>
    if ¬pat.isEmpty ∧ pat.isPrefixOf (c :: rest) then
      pyReplaceAll pat ((c :: rest).drop pat.length)
    else
      c :: pyReplaceAll pat rest
termination_by l.length
decreasing_by
  · have hp : 1 ≤ pat.length := by
      rcases pat with _ | ⟨p, ps⟩
      · simp at *
      · simp
    simp only [List.length_drop, List.length_cons]
    omega
  · simp

/-- `time_str.lower().strip()`, the normalisation `parse_reminder_time`
applies before matching anything. -/
def normChars (s : String) : List Char :=
  pyStripList (s.toList.map pyLowerChar)

/-! ## strptime / fromisoformat parsers

`strptime` numeric fields match greedily up to their width and the whole
input must be consumed; a field value out of range or a leftover
character is a `ValueError`, which every caller in the source turns into
a failure result.  (For these formats, in which every digit field is
followed by a non-digit literal or the end of input, the greedy match
without backtracking is exactly the regex semantics of CPython's
`_strptime`.) -/

/-- One or two leading decimal digits, greedily. -/
def takeDigits2 : List Char → Option (Nat × List Char)
  | c1 :: c2 :: rest =>
    if c1.isDigit then
      if c2.isDigit then some (digitVal c1 * 10 + digitVal c2, rest)
      else some (digitVal c1, c2 :: rest)
    else none
  | [c1] => if c1.isDigit then some (digitVal c1, []) else none
  | [] => none

/-- Exactly four leading decimal digits (`%Y`). -/
def take4Digits : List Char → Option (Nat × List Char)
  | a :: b :: c :: d :: rest =>
    if a.isDigit ∧ b.isDigit ∧ c.isDigit ∧ d.isDigit then
      some (digitVal a * 1000 + digitVal b * 100 + digitVal c * 10 + digitVal d, rest)
    else none
  | _ => none

/-- `datetime.strptime(s, '%H:%M')`, as a time of day in (hour, minute). -/
def strptimeHM (cs : List Char) : Option (Nat × Nat) :=
  match takeDigits2 cs with
  | some (h, ':' :: r1) =>
    match takeDigits2 r1 with
    | some (m, []) => if h ≤ 23 ∧ m ≤ 59 then some (h, m) else none
    | _ => none
  | _ => none

/-- `datetime.strptime(s, '%Y-%m-%d')`, as a day count. -/
def strptimeDate (cs : List Char) : Option Nat :=
  match take4Digits cs with
  | some (y, '-' :: r1) =>
    match takeDigits2 r1 with
    | some (mo, '-' :: r2) =>
      match takeDigits2 r2 with
      | some (d, []) =>
        if 1 ≤ y ∧ 1 ≤ mo ∧ mo ≤ 12 ∧ 1 ≤ d ∧ d ≤ daysInMonth y mo then
          some (civilToDays y mo d)
        else none
      | _ => none
    | _ => none
  | _ => none

/-- `datetime.strptime(s, '%Y-%m-%d %H:%M')`, as an absolute time. -/
def strptimeYMDHM (cs : List Char) : Option Nat :=
  match take4Digits cs with
  | some (y, '-' :: r1) =>
    match takeDigits2 r1 with
    | some (mo, '-' :: r2) =>
      match takeDigits2 r2 with
      | some (d, ' ' :: r3) =>
        match takeDigits2 r3 with
        | some (h, ':' :: r4) =>
          match takeDigits2 r4 with
          | some (mi, []) =>
            if 1 ≤ y ∧ 1 ≤ mo ∧ mo ≤ 12 ∧ 1 ≤ d ∧ d ≤ daysInMonth y mo ∧
                h ≤ 23 ∧ mi ≤ 59 then
              some (civilToDays y mo d * usPerDay + h * usPerHour + mi * usPerMinute)
            else none
          | _ => none
        | _ => none
      | _ => none
    | _ => none
  | _ => none

/-- `datetime.strptime(s, '%Y-%m-%d %H:%M:%S')`, as an absolute time. -/
def strptimeYMDHMS (cs : List Char) : Option Nat :=
  match take4Digits cs with
  | some (y, '-' :: r1) =>
    match takeDigits2 r1 with
    | some (mo, '-' :: r2) =>
      match takeDigits2 r2 with
      | some (d, ' ' :: r3) =>
        match takeDigits2 r3 with
        | some (h, ':' :: r4) =>
          match takeDigits2 r4 with
          | some (mi, ':' :: r5) =>
            match takeDigits2 r5 with
            | some (se, []) =>
              if 1 ≤ y ∧ 1 ≤ mo ∧ mo ≤ 12 ∧ 1 ≤ d ∧ d ≤ daysInMonth y mo ∧
                  h ≤ 23 ∧ mi ≤ 59 ∧ se ≤ 59 then
                some (civilToDays y mo d * usPerDay + h * usPerHour +
                  mi * usPerMinute + se * usPerSecond)
              else none
            | _ => none
          | _ => none
        | _ => none
      | _ => none
    | _ => none
  | _ => none

/-- Exactly two digits, used by the fixed-width `fromisoformat` fields. -/
def take2Exact : List Char → Option (Nat × List Char)
  | a :: b :: rest =>
    if a.isDigit ∧ b.isDigit then some (digitVal a * 10 + digitVal b, rest) else none
  | _ => none

/-- The time part accepted by `datetime.fromisoformat` after the
separator: `HH:MM[:SS[.fff[fff]]]`, as microseconds into the day. -/
def isoTimePart (cs : List Char) : Option Nat :=
  match take2Exact cs with
  | some (h, ':' :: r1) =>
    match take2Exact r1 with
    | some (mi, r2) =>
      if ¬(h ≤ 23 ∧ mi ≤ 59) then none
      else
        match r2 with
        | [] => some (h * usPerHour + mi * usPerMinute)
        | ':' :: r3 =>
          match take2Exact r3 with
          | some (se, r4) =>
            if ¬se ≤ 59 then none
            else
              match r4 with
              | [] => some (h * usPerHour + mi * usPerMinute + se * usPerSecond)
              | '.' :: fs =>
                if fs.length = 3 ∧ fs.all Char.isDigit then
                  some (h * usPerHour + mi * usPerMinute + se * usPerSecond +
                    digitsToNat fs * 1000)
                else if fs.length = 6 ∧ fs.all Char.isDigit then
                  some (h * usPerHour + mi * usPerMinute + se * usPerSecond +
                    digitsToNat fs)
                else none
              | _ => none
          | _ => none
        | _ => none
    | _ => none
  | _ => none

/-- `datetime.fromisoformat(s)`: a `YYYY-MM-DD` date, optionally followed
by a one-character separator and a time part.  `none` models the
`ValueError` raised on anything else. -/
def fromisoformat (s : String) : Option Nat :=
  match s.toList with
  | y1 :: y2 :: y3 :: y4 :: '-' :: m1 :: m2 :: '-' :: d1 :: d2 :: rest =>
    if y1.isDigit ∧ y2.isDigit ∧ y3.isDigit ∧ y4.isDigit ∧
        m1.isDigit ∧ m2.isDigit ∧ d1.isDigit ∧ d2.isDigit then
      let y := digitVal y1 * 1000 + digitVal y2 * 100 + digitVal y3 * 10 + digitVal y4
      let mo := digitVal m1 * 10 + digitVal m2
      let d := digitVal d1 * 10 + digitVal d2
      if 1 ≤ y ∧ 1 ≤ mo ∧ mo ≤ 12 ∧ 1 ≤ d ∧ d ≤ daysInMonth y mo then
        match rest with
        | [] => some (civilToDays y mo d * usPerDay)
        | _ :: tr => (isoTimePart tr).map (civilToDays y mo d * usPerDay + ·)
      else none
    else none
  | _ => none

/-! ## Time-expression parser (`parse_reminder_time`, src/bot.py) -/

def kwCheres : List Char := "через".toList

def kwMinut : List Char := "минут".toList

def kwChas : List Char := "час".toList

def kwDen : List Char := "день".toList

def kwDnya : List Char := "дня".toList

def kwDney : List Char := "дней".toList

def kwZavtra : List Char := "завтра".toList

def pySplit (l : List Char) : List (List Char) := pySplitChars l []

/-- The `через N <unit>` arm: `int(''.join(filter(str.isdigit, parts[1])))`
scaled by the unit.  A missing second token (`IndexError`) or a token
without a single digit (`int('')` raising `ValueError`) is caught by the
enclosing handler and yields `None`. -/
def relAmount (parts : List (List Char)) (unit now : Nat) : Option Nat :=
  match parts.get? 1 with
  | none => none
  | some tok =>
    let ds := tok.filter Char.isDigit
    if ds.isEmpty then none else some (now + digitsToNat ds * unit)

/-- `parse_reminder_time` of src/bot.py: lower-case and strip the input,
then try, in order, the `через`-relative forms, the colon-based absolute
forms (bare `HH:MM` with day rollover when strictly before now, else
`YYYY-MM-DD HH:MM`), and finally the `завтра HH:MM` form.  `none` is the
`return None` / caught-exception outcome. -/
def parse_reminder_time (now : Nat) (input : String) : Option Nat :=
  let cs := normChars input
  if kwCheres.isPrefixOf cs then
    let parts := pySplit cs
    if hasSub kwMinut cs then relAmount parts usPerMinute now
    else if hasSub kwChas cs then relAmount parts usPerHour now
    else if hasSub kwDen cs || hasSub kwDnya cs || hasSub kwDney cs then
      relAmount parts usPerDay now
    else none
  else if cs.contains ':' then
    if cs.length = 5 then
      match strptimeHM cs with
      | some hm =>
        let t := now / usPerDay * usPerDay + hm.1 * usPerHour + hm.2 * usPerMinute
        some (if t < now then t + usPerDay else t)
      | none => none
    else strptimeYMDHM cs
  else if kwZavtra.isPrefixOf cs then
    let tp := pyStripList (pyReplaceAll kwZavtra cs)
    if tp.contains ':' then
      match strptimeHM tp with
      | some hm =>
        some ((now + usPerDay) / usPerDay * usPerDay + hm.1 * usPerHour + hm.2 * usPerMinute)
      | none => none
    else none
  else none

/-- The canonical two-digit rendering of an `HH:MM` clock time, the
exact five-character input shape of the bare time-of-day form. -/
def formatHM (h m : Nat) : List Char :=
  [dChar (h / 10), dChar (h % 10), ':', dChar (m / 10), dChar (m % 10)]

/-! ## Subscription ledger, draft 1 (src/telegram-bot/src/database.py)

A row of the `users` table, reduced to the columns the subscription
operations read: the SQLite draft stores `subscription_end` as the
`strftime('%Y-%m-%d')` string, or NULL. -/

structure DbUser where
  id : Nat
  subscription_end : Option String
  deriving Repr, DecidableEq

/-- `Database.check_subscription`: the designated admin always passes;
otherwise the user's row is fetched, a missing row, NULL or empty end is
`False`, the stored string is `strptime`d (a `ValueError` is caught and
turned into `False`), and the parsed end must be strictly after now. -/
def db_check_subscription (adminId : Nat) (db : List DbUser) (uid now : Nat) : Bool :=
  if uid = adminId then true
  else
    match db.find? (fun u => u.id == uid) with
    | none => false
    | some row =>
      match row.subscription_end with
      | none => false
      | some s =>
        if s = "" then false
        else
          match strptimeDate s.toList with
          | none => false
          | some d => decide (d * usPerDay > now)

/-- `Database.update_subscription`, the value written back for the user:
when the row holds a truthy `subscription_end`, the new end is the
stored end plus `30*months` days; otherwise it is `now` plus
`30*months` days.  The result is stored as a `%Y-%m-%d` string.  `none`
models the code's exception path (an unparseable stored end makes
`strptime` raise, the handler logs and no update happens). -/
def db_update_subscription (stored : Option (Option String)) (now : Nat) (months : Nat) :
    Option String :=
  let delta := 30 * months * usPerDay
  match stored with
  | some (some s) =>
    if s = "" then some (strftimeD (now + delta))
    else
      match strptimeDate s.toList with
      | none => none
      | some d => some (strftimeD (d * usPerDay + delta))
  | _ => some (strftimeD (now + delta))

/-- The extension rule the spec (§4.3) states for
`extend(user, now, purchasedDuration)`, written out from the spec's
words so it can be compared against the code's rule: new end =
`max(currentSubscriptionEnd, now) + purchasedDuration`. -/
def specExtendNewEnd (cur : Option Nat) (now delta : Nat) : Nat :=
  match cur with
  | some e => max e now + delta
  | none => now + delta

/-! ## Subscription ledger, draft 2
(src/telegram-bot/src/life_assistant_bot_full_project.py)

A row of this draft's `users` table: `trial_used` and an ISO-string
`subscription_end`. -/

structure LifeUser where
  id : Nat
  trial_used : Bool
  subscription_end : Option String
  deriving Repr, DecidableEq

/-- `Database.check_subscription` of the full-project draft: no admin
short-circuit here; a missing row or falsy end is `False`, the stored
string is `fromisoformat`ed with any exception caught as `False`, and
the end must be strictly after now. -/
def life_check_subscription (db : List LifeUser) (uid now : Nat) : Bool :=
  match db.find? (fun u => u.id == uid) with
  | none => false
  | some row =>
    match row.subscription_end with
    | none => false
    | some s =>
      if s = "" then false
      else
        match fromisoformat s with
        | none => false
        | some e => decide (e > now)

/-- `Database.update_subscription` of the full-project draft: the new
end is unconditionally `utcnow() + days`, truncated to a whole second
and stored in ISO form; the user's row is updated, or inserted (with
default `trial_used = 0`) when no row matched. -/
def life_update_subscription (db : List LifeUser) (uid days now : Nat) : List LifeUser :=
  let endIso := isoDT (secFloor (now + days * usPerDay))
  if db.any (fun u => u.id == uid) then
    db.map (fun u => if u.id == uid then { u with subscription_end := some endIso } else u)
  else db ++ [⟨uid, false, some endIso⟩]

/-- `Database.set_trial_used`: `UPDATE users SET trial_used = 1`. -/
def set_trial_used (db : List LifeUser) (uid : Nat) : List LifeUser :=
  db.map (fun u => if u.id == uid then { u with trial_used := true } else u)

/-- `Database.check_trial_used`: the row exists and its flag is set. -/
def check_trial_used (db : List LifeUser) (uid : Nat) : Bool :=
  match db.find? (fun u => u.id == uid) with
  | none => false
  | some row => row.trial_used

/-- What subscription-end string the ledger currently holds for a user. -/
def subscription_end_of (db : List LifeUser) (uid : Nat) : Option String :=
  match db.find? (fun u => u.id == uid) with
  | none => none
  | some row => row.subscription_end

/-- `ADMIN_ID and user_id == ADMIN_ID` (a `None` or `0` admin id is
falsy in Python). -/
def adminOk (adminId : Option Nat) (uid : Nat) : Bool :=
  match adminId with
  | some a => a ≠ 0 && uid == a
  | none => false

inductive SubResult where
  | alreadyActive
  | trialGranted
  | paymentOffered
  deriving Repr, DecidableEq

/-- `LifeAssistantBot.process_subscription`: an active subscription (or
the admin) answers "already active"; otherwise an unused trial grants
`TRIAL_DAYS` of access and irreversibly sets the flag; otherwise a
payment link is offered ("trial already used"). -/
def process_subscription (db : List LifeUser) (uid now : Nat) (adminId : Option Nat)
    (trialDays : Nat) : List LifeUser × SubResult :=
  if life_check_subscription db uid now || adminOk adminId uid then
    (db, .alreadyActive)
  else if !check_trial_used db uid then
    (set_trial_used (life_update_subscription db uid trialDays now) uid, .trialGranted)
  else
    (db, .paymentOffered)

/-! ## Reminders, full-project draft
(src/telegram-bot/src/life_assistant_bot_full_project.py)

A row of this draft's `reminders` table; `due_date` is the ISO string
the reminder was created with (or whatever the store holds after a
restart). -/

structure LifeRem where
  id : Nat
  user_id : Nat
  chat_id : Nat
  text : String
  due_date : String
  completed : Bool
  deriving Repr, DecidableEq

inductive AddResult where
  | badFormat
  | pastDate
  | created (id : Nat)
  deriving Repr, DecidableEq

/-- `ReminderManager.add_reminder`: the due string must `fromisoformat`;
a due time before `utcnow()` is rejected as "date in the past";
otherwise the reminder is persisted not-completed and a one-shot job is
scheduled for it. -/
def life_add_reminder (db : List LifeRem) (nextId uid chat : Nat) (text due_iso : String)
    (now : Nat) : List LifeRem × AddResult :=
  match fromisoformat due_iso with
  | none => (db, .badFormat)
  | some due =>
    if due < now then (db, .pastDate)
    else (db ++ [⟨nextId, uid, chat, text, due_iso, false⟩], .created nextId)

/-- `Database.get_future_reminders`: `SELECT * WHERE completed = 0`. -/
def life_get_future_reminders (db : List LifeRem) : List LifeRem :=
  db.filter (fun r => !r.completed)

/-- `Database.mark_reminder_completed`. -/
def mark_reminder_completed (db : List LifeRem) (remId : Nat) : List LifeRem :=
  db.map (fun r => if r.id == remId then { r with completed := true } else r)

/-- `ReminderManager.schedule_all`, run at process start: every
not-completed persisted reminder with a parseable due date gets a
one-shot job; the delay is `due - utcnow()`, forced to one second when
the due time has already passed.  The result lists `(reminder id,
delay in microseconds)`; an unparseable due date is skipped. -/
def schedule_all (db : List LifeRem) (now : Nat) : List (Nat × Nat) :=
  (life_get_future_reminders db).filterMap (fun r =>
    if r.completed then none
    else
      match fromisoformat r.due_date with
      | none => none
      | some due => some (r.id, if due ≤ now then usPerSecond else due - now))

/-- `ReminderManager._job_callback`: re-read the reminder row; a missing
or already-completed row sends nothing; otherwise the message is sent
and only on a successful send is the reminder marked completed (a
failed send is logged and the row left untouched).  `sendOk` is the
outcome of the outbound send; the second component reports whether a
message went out. -/
def job_callback (db : List LifeRem) (remId : Nat) (sendOk : Bool) : List LifeRem × Bool :=
  match db.find? (fun r => r.id == remId) with
  | none => (db, false)
  | some rem =>
    if rem.completed then (db, false)
    else if sendOk then (mark_reminder_completed db remId, true)
    else (db, false)

/-! ## Reminders, standalone-manager draft
(src/telegram-bot/src/reminder.py)

A row of the `reminders` table of database.py, reduced to the columns
`add_reminder` writes (the SQLite path re-renders the parsed due date
as a `%Y-%m-%d %H:%M:%S` string; `completed` defaults to FALSE). -/

structure RmReminder where
  id : Nat
  user_id : Nat
  text : String
  due_date : String
  completed : Bool
  deriving Repr, DecidableEq

/-- `ReminderManager.add_reminder` of reminder.py: the due string is
parsed with `strptime('%Y-%m-%d %H:%M')`; a `ValueError` returns a
failure message; otherwise the reminder is inserted unconditionally —
this draft performs no due-time check whatsoever, so past dates are
persisted too — and success is reported. -/
def rm_add_reminder (db : List RmReminder) (nextId uid : Nat) (text due_date_str : String) :
    List RmReminder × Bool :=
  match strptimeYMDHM due_date_str.toList with
  | none => (db, false)
  | some due => (db ++ [⟨nextId, uid, text, strftimeDT due, false⟩], true)

/-! ## Reminders, sweep draft (src/bot.py)

A row of this draft's `reminders` table.  `time` is the stored
`reminder_time` TEXT value; SQLite compares it against
`datetime('now')` strings byte-wise, which for these ASCII strings is
exactly lexicographic order on characters. -/

structure BotReminder where
  id : Nat
  chat_id : Nat
  text : String
  time : String
  is_completed : Bool
  is_active : Bool
  deriving Repr, DecidableEq

/-- Byte-wise (SQLite BINARY) strict order on strings. -/
def lexLt : List Char → List Char → Bool
  | [], [] => false
  | [], _ :: _ => true
  | _ :: _, [] => false
  | a :: as, b :: bs =>
    if a.toNat < b.toNat then true
    else if b.toNat < a.toNat then false
    else lexLt as bs

def strLt (s t : String) : Bool := lexLt s.toList t.toList

def strLe (s t : String) : Bool := !strLt t s

/-- Insertion of a reminder into a list sorted by `time`. -/
def insertByTime (r : BotReminder) : List BotReminder → List BotReminder
  | [] => [r]
  | x :: xs => if strLe r.time x.time then r :: x :: xs else x :: insertByTime r xs

/-- `ORDER BY reminder_time` on the TEXT column. -/
def sortByTime : List BotReminder → List BotReminder
  | [] => []
  | x :: xs => insertByTime x (sortByTime xs)

/-- `ChatDatabase.get_active_reminders`: with a truthy `chat_id`, the
chat's still-future active reminders; without one (the sweep's call),
every active not-completed reminder due within the next hour — the
window has no lower bound, so long-overdue reminders are included. -/
def get_active_reminders (db : List BotReminder) (now : Nat) (chatId : Option Nat) :
    List BotReminder :=
  match chatId with
  | some c =>
    if c ≠ 0 then
      sortByTime (db.filter (fun r =>
        r.is_active && !r.is_completed && r.chat_id == c && strLt (strftimeDT now) r.time))
    else
      sortByTime (db.filter (fun r =>
        r.is_active && !r.is_completed && strLe r.time (strftimeDT (now + usPerHour))))
  | none =>
    sortByTime (db.filter (fun r =>
      r.is_active && !r.is_completed && strLe r.time (strftimeDT (now + usPerHour))))

/-- `ChatDatabase.complete_reminder`: `SET is_completed = TRUE,
is_active = FALSE WHERE id = ?`. -/
def complete_reminder (db : List BotReminder) (remId : Nat) : List BotReminder :=
  db.map (fun r => if r.id == remId then { r with is_completed := true, is_active := false }
    else r)

/-- The body of `check_reminders`' loop over the fetched candidates:
each row's stored time is `strptime`d, the due ones are sent and marked
completed.  An exception — an unparseable stored time, or a failed
outbound send (`sendOk id = false`) — propagates to the handler wrapped
around the whole loop, so the pass stops there; nothing already done is
undone.  Returns the updated table and the ids delivered this pass. -/
def sweepGo (db : List BotReminder) (pending : List BotReminder) (now : Nat)
    (sendOk : Nat → Bool) (log : List Nat) : List BotReminder × List Nat :=
  match pending with
  | [] => (db, log)
  | r :: rest =>
    match strptimeYMDHMS r.time.toList with
    | none => (db, log)
    | some t =>
      if t ≤ now then
        if sendOk r.id then
          sweepGo (complete_reminder db r.id) rest now sendOk (log ++ [r.id])
        else (db, log)
      else sweepGo db rest now sendOk log

/-- `check_reminders`, one pass of the 60-second periodic sweep. -/
def check_reminders (db : List BotReminder) (now : Nat) (sendOk : Nat → Bool) :
    List BotReminder × List Nat :=
  sweepGo db (get_active_reminders db now none) now sendOk []

/-! ## Lemmas about the full-project ledger -/

theorem find?_map_keyed {p : LifeUser → Bool} {f : LifeUser → LifeUser}
    (hf : ∀ u, p (f u) = p u) :
    ∀ db : List LifeUser, (db.map f).find? p = (db.find? p).map f := by
  intro db
  induction db with
  | nil => simp
  | cons x xs ih =>
    simp only [List.map_cons]
    by_cases hx : p x
    · rw [List.find?_cons_of_pos _ (by rw [hf]; exact hx), List.find?_cons_of_pos _ hx]
      simp
    · rw [List.find?_cons_of_neg _ (by rw [hf]; simpa using hx), List.find?_cons_of_neg _ hx]
      exact ih

theorem find?_append_of_none {α : Type} {l1 l2 : List α} {p : α → Bool}
    (h : l1.find? p = none) : (l1 ++ l2).find? p = l2.find? p := by
  induction l1 with
  | nil => simp
  | cons x xs ih =>
    rcases hx : p x with _ | _
    · rw [List.find?_cons_of_neg _ (by simp [hx])] at h
      rw [List.cons_append, List.find?_cons_of_neg _ (by simp [hx])]
      exact ih h
    · rw [List.find?_cons_of_pos _ hx] at h
      exact absurd h (by simp)

theorem find?_append_of_some {α : Type} {l1 l2 : List α} {p : α → Bool} {a : α}
    (h : l1.find? p = some a) : (l1 ++ l2).find? p = some a := by
  induction l1 with
  | nil => simp at h
  | cons x xs ih =>
    rcases hx : p x with _ | _
    · rw [List.find?_cons_of_neg _ (by simp [hx])] at h
      rw [List.cons_append, List.find?_cons_of_neg _ (by simp [hx])]
      exact ih h
    · rw [List.find?_cons_of_pos _ hx] at h
      rw [List.cons_append, List.find?_cons_of_pos _ hx]
      exact h

theorem set_trial_id_pred (uid u2 : Nat) (u : LifeUser) :
    ((if u.id == uid then { u with trial_used := true } else u).id == u2) = (u.id == u2) := by
  by_cases hb : u.id == uid <;> simp [hb]

theorem upd_sub_id_pred (uid u2 : Nat) (s : String) (u : LifeUser) :
    ((if u.id == uid then { u with subscription_end := some s } else u).id == u2) =
      (u.id == u2) := by
  by_cases hb : u.id == uid <;> simp [hb]

/-- `update_subscription` never touches the trial flag of any user. -/
theorem check_trial_used_update (db : List LifeUser) (uid days now u2 : Nat) :
    check_trial_used (life_update_subscription db uid days now) u2 =
      check_trial_used db u2 := by
  unfold check_trial_used life_update_subscription
  by_cases hA : db.any (fun u => u.id == uid)
  · rw [if_pos hA,
      find?_map_keyed (upd_sub_id_pred uid u2 (isoDT (secFloor (now + days * usPerDay)))) db]
    rcases hf : db.find? (fun u => u.id == u2) with _ | row
    · rw [hf]
      rfl
    · rw [hf]
      by_cases hb : row.id = uid <;> simp [hb]
  · rw [if_neg hA]
    have hnone : db.find? (fun u => u.id == uid) = none := by
      rw [List.find?_eq_none]
      intro x hx hpx
      exact hA (List.any_eq_true.mpr ⟨x, hx, hpx⟩)
    by_cases he : u2 = uid
    · subst he
      rw [find?_append_of_none hnone, hnone]
      simp [List.find?]
    · rcases hf : db.find? (fun u => u.id == u2) with _ | row
      · rw [find?_append_of_none hf, hf]
        have hne : (uid == u2) = false := by
          simp only [beq_eq_false_iff_ne]
          exact fun hc => he hc.symm
        simp [List.find?, hne]
      · rw [find?_append_of_some hf, hf]

/-- After `update_subscription(uid, ...)` the user's stored end is
exactly the freshly written ISO string. -/
theorem sub_end_update (db : List LifeUser) (uid days now : Nat) :
    subscription_end_of (life_update_subscription db uid days now) uid =
      some (isoDT (secFloor (now + days * usPerDay))) := by
  unfold subscription_end_of life_update_subscription
  by_cases hA : db.any (fun u => u.id == uid)
  · rw [if_pos hA,
      find?_map_keyed (upd_sub_id_pred uid uid (isoDT (secFloor (now + days * usPerDay)))) db]
    rcases hf : db.find? (fun u => u.id == uid) with _ | row
    · rcases List.any_eq_true.mp hA with ⟨x, hx, hpx⟩
      exact absurd (List.find?_eq_none.mp hf x hx) (by simpa using hpx)
    · rw [hf]
      have hrow : row.id = uid := by simpa using List.find?_some hf
      simp [hrow]
  · rw [if_neg hA]
    have hnone : db.find? (fun u => u.id == uid) = none := by
      rw [List.find?_eq_none]
      intro x hx hpx
      exact hA (List.any_eq_true.mpr ⟨x, hx, hpx⟩)
    rw [find?_append_of_none hnone]
    simp [List.find?]

/-- `update_subscription` always leaves a row for the user. -/
theorem upd_has_row (db : List LifeUser) (uid days now : Nat) :
    ((life_update_subscription db uid days now).find? (fun u => u.id == uid)).isSome = true := by
  have h := sub_end_update db uid days now
  unfold subscription_end_of at h
  rcases hf : (life_update_subscription db uid days now).find? (fun u => u.id == uid) with _ | row
  · rw [hf] at h
    simp at h
  · rw [hf]
    rfl

/-- `set_trial_used` preserves every user's stored subscription end. -/
theorem sub_end_set_trial (db : List LifeUser) (uid u2 : Nat) :
    subscription_end_of (set_trial_used db uid) u2 = subscription_end_of db u2 := by
  unfold subscription_end_of set_trial_used
  rw [find?_map_keyed (set_trial_id_pred uid u2) db]
  rcases hf : db.find? (fun u => u.id == u2) with _ | row
  · rw [hf]
    rfl
  · rw [hf]
    by_cases hb : row.id = uid <;> simp [hb]

/-- `set_trial_used(uid)` sets the flag whenever the user has a row. -/
theorem check_trial_after_set (db : List LifeUser) (uid : Nat)
    (h : (db.find? (fun u => u.id == uid)).isSome = true) :
    check_trial_used (set_trial_used db uid) uid = true := by
  unfold check_trial_used set_trial_used
  rw [find?_map_keyed (set_trial_id_pred uid uid) db]
  rcases hf : db.find? (fun u => u.id == uid) with _ | row
  · rw [hf] at h
    simp at h
  · rw [hf]
    have hrow : row.id = uid := by simpa using List.find?_some hf
    simp [hrow]

/-- `set_trial_used` never clears anyone's flag. -/
theorem check_trial_mono_set (db : List LifeUser) (uid u2 : Nat)
    (h : check_trial_used db u2 = true) :
    check_trial_used (set_trial_used db uid) u2 = true := by
  unfold check_trial_used set_trial_used at *
  rw [find?_map_keyed (set_trial_id_pred uid u2) db]
  rcases hf : db.find? (fun u => u.id == u2) with _ | row
  · rw [hf] at h
    simp at h
  · rw [hf] at h ⊢
    by_cases hb : row.id = uid
    · simp [hb]
    · simp [hb]
      simpa using h

/-! ## Lemmas about the sweep draft -/

theorem mem_insertByTime {a r : BotReminder} {l : List BotReminder} :
    a ∈ insertByTime r l ↔ a = r ∨ a ∈ l := by
  induction l with
  | nil => simp [insertByTime]
  | cons x xs ih =>
    simp only [insertByTime]
    split
    · simp [List.mem_cons]
    · simp only [List.mem_cons, ih]
      tauto

theorem mem_sortByTime {a : BotReminder} {l : List BotReminder} :
    a ∈ sortByTime l ↔ a ∈ l := by
  induction l with
  | nil => simp [sortByTime]
  | cons x xs ih => simp [sortByTime, mem_insertByTime, ih]

theorem mem_get_active {db : List BotReminder} {now : Nat} {r : BotReminder} :
    r ∈ get_active_reminders db now none ↔
      r ∈ db ∧ r.is_active = true ∧ r.is_completed = false ∧
        strLe r.time (strftimeDT (now + usPerHour)) = true := by
  simp only [get_active_reminders, mem_sortByTime, List.mem_filter, Bool.and_eq_true,
    Bool.not_eq_true']
  tauto

theorem mem_complete_reminder_of_ne {db : List BotReminder} {r : BotReminder} {i : Nat}
    (h : r ∈ db) (hne : r.id ≠ i) : r ∈ complete_reminder db i := by
  have hr : (if r.id == i then { r with is_completed := true, is_active := false } else r) = r := by
    simp [hne]
  unfold complete_reminder
  exact hr ▸ List.mem_map_of_mem _ h

theorem time_of_mem_complete {db : List BotReminder} {x : BotReminder} {i : Nat}
    (h : x ∈ complete_reminder db i) : ∃ y ∈ db, x.time = y.time := by
  unfold complete_reminder at h
  rcases List.mem_map.mp h with ⟨y, hy, hxy⟩
  refine ⟨y, hy, ?_⟩
  by_cases hb : y.id == i <;> simp [hb] at hxy <;> simp [← hxy]

theorem sweepGo_db_times {pending : List BotReminder} :
    ∀ {db : List BotReminder} {now : Nat} {sendOk : Nat → Bool} {log : List Nat}
      {x : BotReminder}, x ∈ (sweepGo db pending now sendOk log).1 →
        ∃ y ∈ db, x.time = y.time := by
  induction pending with
  | nil =>
    intro db now sendOk log x h
    simp only [sweepGo] at h
    exact ⟨x, h, rfl⟩
  | cons r rest ih =>
    intro db now sendOk log x h
    simp only [sweepGo] at h
    split at h
    · exact ⟨x, h, rfl⟩
    · split at h
      · split at h
        · rcases ih h with ⟨y, hy, hxy⟩
          rcases time_of_mem_complete hy with ⟨z, hz, hyz⟩
          exact ⟨z, hz, hxy.trans hyz⟩
        · exact ⟨x, h, rfl⟩
      · exact ih h

theorem sweepGo_preserves {pending : List BotReminder} :
    ∀ {db : List BotReminder} {now : Nat} {sendOk : Nat → Bool} {log : List Nat}
      {r : BotReminder}, sendOk r.id = false → r ∈ db →
        r ∈ (sweepGo db pending now sendOk log).1 := by
  induction pending with
  | nil =>
    intro db now sendOk log r _ h
    simpa only [sweepGo] using h
  | cons x rest ih =>
    intro db now sendOk log r hfail h
    simp only [sweepGo]
    split
    · exact h
    · split
      · split
        · next hs =>
          have hne : r.id ≠ x.id := by
            intro he
            rw [he, hs] at hfail
            exact Bool.true_eq_false.mp hfail
          exact ih hfail (mem_complete_reminder_of_ne h hne)
        · exact h
      · exact ih hfail h

theorem sweepGo_log_origin {pending : List BotReminder} :
    ∀ {db : List BotReminder} {now : Nat} {sendOk : Nat → Bool} {log : List Nat} {i : Nat},
      i ∈ (sweepGo db pending now sendOk log).2 →
        i ∈ log ∨ ∃ r ∈ pending, r.id = i ∧ sendOk i = true := by
  induction pending with
  | nil =>
    intro db now sendOk log i h
    simp only [sweepGo] at h
    exact Or.inl h
  | cons x rest ih =>
    intro db now sendOk log i h
    simp only [sweepGo] at h
    split at h
    · exact Or.inl h
    · split at h
      · split at h
        · next hs =>
          rcases ih h with hl | ⟨r, hr, hri, hsi⟩
          · rcases List.mem_append.mp hl with hl | hl
            · exact Or.inl hl
            · have hix : i = x.id := by simpa using hl
              exact Or.inr ⟨x, List.mem_cons_self .., hix.symm, hix ▸ hs⟩
          · exact Or.inr ⟨r, List.mem_cons_of_mem _ hr, hri, hsi⟩
        · exact Or.inl h
      · rcases ih h with hl | ⟨r, hr, hri, hsi⟩
        · exact Or.inl hl
        · exact Or.inr ⟨r, List.mem_cons_of_mem _ hr, hri, hsi⟩

theorem sweepGo_log_mono {pending : List BotReminder} :
    ∀ {db : List BotReminder} {now : Nat} {sendOk : Nat → Bool} {log : List Nat} {i : Nat},
      i ∈ log → i ∈ (sweepGo db pending now sendOk log).2 := by
  induction pending with
  | nil =>
    intro db now sendOk log i h
    simpa only [sweepGo] using h
  | cons x rest ih =>
    intro db now sendOk log i h
    simp only [sweepGo]
    split
    · exact h
    · split
      · split
        · exact ih (List.mem_append.mpr (Or.inl h))
        · exact h
      · exact ih h

theorem sweepGo_delivers {pending : List BotReminder} :
    ∀ {db : List BotReminder} {now : Nat} {sendOk : Nat → Bool} {log : List Nat}
      {r : BotReminder} {t : Nat},
      (∀ x ∈ pending, (strptimeYMDHMS x.time.toList).isSome = true) →
      (∀ j, sendOk j = true) → r ∈ pending →
      strptimeYMDHMS r.time.toList = some t → t ≤ now →
        r.id ∈ (sweepGo db pending now sendOk log).2 := by
  induction pending with
  | nil =>
    intro db now sendOk log r t _ _ hmem _ _
    exact absurd hmem (List.not_mem_nil r)
  | cons x rest ih =>
    intro db now sendOk log r t hall hsend hmem hp hd
    simp only [sweepGo]
    rcases List.mem_cons.mp hmem with he | hm
    · subst he
      split
      · next heq => rw [hp] at heq; exact absurd heq (by simp)
      · next t2 heq =>
        rw [hp] at heq
        have ht2 : t2 = t := by simpa using heq.symm
        subst ht2
        rw [if_pos hd, if_pos (hsend r.id)]
        exact sweepGo_log_mono (by simp)
    · have hx := hall x (List.mem_cons_self ..)
      split
      · next heq => rw [heq] at hx; exact absurd hx (by simp)
      · next tx heq =>
        split
        · rw [if_pos (hsend x.id)]
          exact ih (fun y hy => hall y (List.mem_cons_of_mem _ hy)) hsend hm hp hd
        · exact ih (fun y hy => hall y (List.mem_cons_of_mem _ hy)) hsend hm hp hd

/-! ## Claim C5: due-time validation of reminder creation -/

/-- Claim C5 (corrected): the repository's two `add_reminder` drafts
validate the due time differently, and neither matches the claim.  The
full-project draft rejects a parseable due time exactly when it is
strictly before now — a due time equal to now, or later, is accepted,
persisted not-completed and scheduled.  The reminder.py draft performs
no due-time check at all: every parseable due string, past included,
is inserted unconditionally with success reported.  (The claim as
frozen says any due time not strictly in the future is rejected;
`C5_accepts_nonfuture_counterexample` shows both drafts accept one.) -/
theorem C5_due_validation_by_draft (db : List LifeRem) (nextId uid chat : Nat)
    (text due_iso : String) (now due : Nat) (rdb : List RmReminder) (rid ruid : Nat)
    (rtext rs : String) (rdue : Nat) (hp : fromisoformat due_iso = some due)
    (hrp : strptimeYMDHM rs.toList = some rdue) :
    (due < now →
      life_add_reminder db nextId uid chat text due_iso now = (db, .pastDate)) ∧
    (now ≤ due →
      life_add_reminder db nextId uid chat text due_iso now =
        (db ++ [⟨nextId, uid, chat, text, due_iso, false⟩], .created nextId)) ∧
    rm_add_reminder rdb rid ruid rtext rs =
      (rdb ++ [⟨rid, ruid, rtext, strftimeDT rdue, false⟩], true) := by
  refine ⟨?_, ?_, ?_⟩
  · intro h
    simp only [life_add_reminder, hp]
    rw [if_pos h]
  · intro h
    simp only [life_add_reminder, hp]
    rw [if_neg (show ¬due < now by omega)]
  · simp only [rm_add_reminder, hrp]

/-- Claim C5, witness: the full-project draft rejects a strictly-past
due time, and the reminder.py draft inserts one with success, at
concrete inputs. -/
theorem C5_validation_witness :
    fromisoformat "2024-01-01T09:00:00" = some (civilToDays 2024 1 1 * usPerDay + 9 * usPerHour) ∧
    strptimeYMDHM ("2020-01-01 09:00" : String).toList =
      some (civilToDays 2020 1 1 * usPerDay + 9 * usPerHour) ∧
    life_add_reminder [] 1 7 8 "call" "2024-01-01T09:00:00"
        (civilToDays 2024 1 1 * usPerDay + 10 * usPerHour) = ([], .pastDate) ∧
    rm_add_reminder [] 1 7 "call" "2020-01-01 09:00" =
      ([⟨1, 7, "call", strftimeDT (civilToDays 2020 1 1 * usPerDay + 9 * usPerHour), false⟩],
        true) := by
  have h := C5_due_validation_by_draft [] 1 7 8 "call" "2024-01-01T09:00:00"
    (civilToDays 2024 1 1 * usPerDay + 10 * usPerHour)
    (civilToDays 2024 1 1 * usPerDay + 9 * usPerHour)
    [] 1 7 "call" "2020-01-01 09:00" (civilToDays 2020 1 1 * usPerDay + 9 * usPerHour)
    (by decide) (by decide)
  exact ⟨by decide, by decide, h.1 (by decide), h.2.2⟩

/-- Claim C5, counterexample to the frozen rejection rule: the
full-project draft accepts and persists a due time exactly equal to
"now", and the reminder.py draft accepts and persists the due time
2020-01-01 09:00 unconditionally — there is no clock in that code
path, so a caller running after that date (any run of this 2024-era
bot) gets a past reminder persisted with a success result. -/
theorem C5_accepts_nonfuture_counterexample :
    life_add_reminder [] 1 7 8 "call" "2024-01-01T10:00:00"
        (civilToDays 2024 1 1 * usPerDay + 10 * usPerHour) =
      ([⟨1, 7, 8, "call", "2024-01-01T10:00:00", false⟩], .created 1) ∧
    AddResult.created 1 ≠ AddResult.pastDate ∧
    rm_add_reminder [] 1 7 "call" "2020-01-01 09:00" =
      ([⟨1, 7, "call", "2020-01-01 09:00:00", false⟩], true) ∧
    (true : Bool) ≠ false := by
  refine ⟨by decide, by decide, by decide, by decide⟩

/-! ## Claim C7: the access check -/

/-- Claim C7 (confirmed): `check_subscription` of database.py returns
true exactly when the user is the designated admin, or the user's
stored subscription-end exists (the record is present, the value
non-null, non-empty and parseable) and is strictly after now; in every
other case — no record, null or empty end, unparseable end, or an end
at or before now — it returns false. -/
theorem C7_check_subscription_iff (adminId : Nat) (db : List DbUser) (uid now : Nat) :
    db_check_subscription adminId db uid now = true ↔
      uid = adminId ∨
        ∃ row, db.find? (fun u => u.id == uid) = some row ∧
          ∃ s e, row.subscription_end = some s ∧ strptimeDate s.toList = some e ∧
            e * usPerDay > now := by
  unfold db_check_subscription
  by_cases had : uid = adminId
  · simp [had]
  · rw [if_neg had]
    rcases hf : db.find? (fun u => u.id == uid) with _ | row
    · simp [had, hf]
    · rcases hse : row.subscription_end with _ | sEnd
      · simp [had, hf, hse]
      · by_cases hemp : sEnd = ""
        · subst hemp
          have hpe : strptimeDate ([] : List Char) = none := by decide
          simp [had, hf, hse, hpe]
        · rcases hp : strptimeDate sEnd.data with _ | e
          · simp [had, hf, hse, hemp, hp]
          · simp [had, hf, hse, hemp, hp]

/-! ## Claim C10: corrupted subscription record denies access -/

/-- Claim C10 (confirmed): when the stored subscription-end string of
the user's row does not parse (`fromisoformat` raises), the
full-project `check_subscription` returns false instead of
propagating the error. -/
theorem C10_corrupt_end_denies (db : List LifeUser) (uid now : Nat) (row : LifeUser)
    (s : String) (hf : db.find? (fun u => u.id == uid) = some row)
    (hs : row.subscription_end = some s) (hbad : fromisoformat s = none) :
    life_check_subscription db uid now = false := by
  simp [life_check_subscription, hf, hs, hbad]

/-- Claim C10, witness: a user whose stored end is the unparseable
string "not-a-date" is denied access. -/
theorem C10_witness :
    ([⟨7, false, some "not-a-date"⟩] : List LifeUser).find? (fun u => u.id == 7) =
        some ⟨7, false, some "not-a-date"⟩ ∧
    fromisoformat "not-a-date" = none ∧
    life_check_subscription [⟨7, false, some "not-a-date"⟩] 7 0 = false := by
  refine ⟨by decide, by decide, ?_⟩
  exact C10_corrupt_end_denies [⟨7, false, some "not-a-date"⟩] 7 0
    ⟨7, false, some "not-a-date"⟩ "not-a-date" (by decide) rfl (by decide)

/-! ## Claim C6: the one-time trial -/

/-- Claim C6 (confirmed): the first trial grant (user not already
subscribed, not the admin, flag unset) sets subscription-end to
now + trialDays and sets the trial-used flag; once the flag is set,
every later subscription request returns the state untouched with a
declined result (already-active or pay-for-it), never a second grant;
and no subscription request ever clears anyone's trial flag. -/
theorem C6_trial_granted_at_most_once (db : List LifeUser) (uid now : Nat)
    (adminId : Option Nat) (trialDays : Nat) :
    (life_check_subscription db uid now = false → adminOk adminId uid = false →
      check_trial_used db uid = false →
        (process_subscription db uid now adminId trialDays).2 = .trialGranted ∧
        check_trial_used (process_subscription db uid now adminId trialDays).1 uid = true ∧
        subscription_end_of (process_subscription db uid now adminId trialDays).1 uid =
          some (isoDT (secFloor (now + trialDays * usPerDay)))) ∧
    (check_trial_used db uid = true →
      (process_subscription db uid now adminId trialDays = (db, .alreadyActive) ∨
       process_subscription db uid now adminId trialDays = (db, .paymentOffered))) ∧
    (∀ u, check_trial_used db u = true →
      check_trial_used (process_subscription db uid now adminId trialDays).1 u = true) := by
  refine ⟨?_, ?_, ?_⟩
  · intro hacc hadm htr
    unfold process_subscription
    rw [hacc, hadm, htr]
    simp only [Bool.or_self, Bool.false_eq_true, if_false, Bool.not_false, if_true]
    refine ⟨trivial, ?_, ?_⟩
    · exact check_trial_after_set _ uid (upd_has_row db uid trialDays now)
    · rw [sub_end_set_trial, sub_end_update]
  · intro htr
    unfold process_subscription
    by_cases hc : life_check_subscription db uid now || adminOk adminId uid
    · rw [if_pos hc]
      exact Or.inl rfl
    · rw [if_neg hc, htr]
      simp only [Bool.not_true, Bool.false_eq_true, if_false]
      exact Or.inr trivial
  · intro u hu
    unfold process_subscription
    by_cases hc : life_check_subscription db uid now || adminOk adminId uid
    · rw [if_pos hc]
      exact hu
    · rw [if_neg hc]
      by_cases htr : check_trial_used db uid
      · rw [htr]
        simpa using hu
      · simp only [Bool.not_eq_true] at htr
        rw [htr]
        simp only [Bool.not_false, if_true]
        refine check_trial_mono_set _ uid u ?_
        rw [check_trial_used_update]
        exact hu

/-- Claim C6, witness: a fresh user is granted the 30-day trial, and
the immediate second request does not grant it again and leaves the
stored end as the first grant wrote it. -/
theorem C6_witness :
    life_check_subscription [] 7 0 = false ∧
    adminOk (some 1) 7 = false ∧
    check_trial_used [] 7 = false ∧
    (process_subscription [] 7 0 (some 1) 30).2 = .trialGranted ∧
    check_trial_used (process_subscription [] 7 0 (some 1) 30).1 7 = true ∧
    subscription_end_of (process_subscription [] 7 0 (some 1) 30).1 7 =
      some (isoDT (secFloor (0 + 30 * usPerDay))) := by
  have h := (C6_trial_granted_at_most_once [] 7 0 (some 1) 30).1 (by decide) (by decide)
    (by decide)
  exact ⟨by decide, by decide, by decide, h.1, h.2.1, h.2.2⟩

/-! ## Claim C8: restart recovery of overdue reminders -/

/-- Claim C8 (confirmed), full-project draft: at startup,
`schedule_all` re-derives jobs from the persisted rows, and every
not-completed reminder whose parseable due time has already passed is
scheduled to fire one second from now rather than skipped. -/
theorem C8_restart_overdue_scheduled_promptly (db : List LifeRem) (now : Nat) (r : LifeRem)
    (due : Nat) (hmem : r ∈ db) (hc : r.completed = false)
    (hp : fromisoformat r.due_date = some due) (hdue : due ≤ now) :
    (r.id, usPerSecond) ∈ schedule_all db now := by
  unfold schedule_all
  refine List.mem_filterMap.mpr ⟨r, ?_, ?_⟩
  · unfold life_get_future_reminders
    exact List.mem_filter.mpr ⟨hmem, by simp [hc]⟩
  · rw [hc, hp]
    simp [hdue]

/-- Claim C8, sweep draft: the first sweep after a restart delivers
every active not-completed reminder already due (its stored time is
within the query window and at or before now), provided every fetched
candidate's stored time parses and the sends go through. -/
theorem C8_sweep_delivers_overdue (db : List BotReminder) (now : Nat) (r : BotReminder)
    (t : Nat) (hmem : r ∈ db) (hact : r.is_active = true) (hcomp : r.is_completed = false)
    (hwin : strLe r.time (strftimeDT (now + usPerHour)) = true)
    (hp : strptimeYMDHMS r.time.toList = some t) (hdue : t ≤ now)
    (hall : ∀ x ∈ db, (strptimeYMDHMS x.time.toList).isSome = true) :
    r.id ∈ (check_reminders db now (fun _ => true)).2 := by
  unfold check_reminders
  refine sweepGo_delivers ?_ (fun _ => rfl) ?_ hp hdue
  · intro x hx
    exact hall x (mem_get_active.mp hx).1
  · exact mem_get_active.mpr ⟨hmem, hact, hcomp, hwin⟩

/-- Claim C8, witness: a reminder four years overdue at startup is
scheduled with a one-second delay by `schedule_all`, and the sweep
draft delivers an overdue persisted reminder in its first pass. -/
theorem C8_witness :
    ((1 : Nat), usPerSecond) ∈
      schedule_all [⟨1, 7, 8, "x", "2020-01-01T00:00:00", false⟩]
        (civilToDays 2024 1 1 * usPerDay) ∧
    (1 : Nat) ∈ (check_reminders [⟨1, 9, "call", "2024-01-01 09:00:00", false, true⟩]
      (civilToDays 2024 1 1 * usPerDay + 10 * usPerHour) (fun _ => true)).2 := by
  constructor
  · exact C8_restart_overdue_scheduled_promptly _ _ ⟨1, 7, 8, "x", "2020-01-01T00:00:00", false⟩
      (civilToDays 2020 1 1 * usPerDay) (by decide) rfl (by decide) (by decide)
  · exact C8_sweep_delivers_overdue _ _ ⟨1, 9, "call", "2024-01-01 09:00:00", false, true⟩
      (civilToDays 2024 1 1 * usPerDay + 9 * usPerHour) (by decide) rfl rfl (by decide)
      (by decide) (by decide) (by decide)

/-! ## Claim C3: a completed reminder is never re-delivered -/

/-- Claim C3 (confirmed): in the sweep draft, a reminder already marked
completed is never delivered by any later `check_reminders` pass (its
id never enters the pass's send log, ids being unique in the table);
and in the per-reminder-timer draft, a `_job_callback` firing for a
reminder whose row is already completed sends nothing and changes
nothing.  Hence a reminder, once completed, is never re-delivered. -/
theorem C3_completed_never_redelivered (db : List BotReminder) (now : Nat)
    (sendOk : Nat → Bool) (r : BotReminder) (hmem : r ∈ db) (hcomp : r.is_completed = true)
    (hids : (db.map (fun x => x.id)).Nodup) :
    r.id ∉ (check_reminders db now sendOk).2 ∧
    (∀ (db2 : List LifeRem) (i : Nat) (ok : Bool) (rem : LifeRem),
      db2.find? (fun x => x.id == i) = some rem → rem.completed = true →
        job_callback db2 i ok = (db2, false)) := by
  constructor
  · intro hin
    rcases sweepGo_log_origin hin with hl | ⟨x, hx, hxi, _⟩
    · exact absurd hl (List.not_mem_nil _)
    · have hxdb := (mem_get_active.mp hx).1
      have hxc := (mem_get_active.mp hx).2.2.1
      have hxr : x = r := List.inj_on_of_nodup_map hids hxdb hmem hxi
      rw [hxr] at hxc
      rw [hxc] at hcomp
      exact Bool.false_ne_true hcomp
  · intro db2 i ok rem hf hc
    simp [job_callback, hf, hc]

/-- Claim C3, witness: a completed reminder is skipped by the sweep,
and the timer callback for a completed row sends nothing. -/
theorem C3_witness :
    (1 : Nat) ∉ (check_reminders [⟨1, 9, "call", "2024-01-01 09:00:00", true, false⟩]
      (civilToDays 2024 1 1 * usPerDay + 10 * usPerHour) (fun _ => true)).2 ∧
    job_callback [⟨1, 7, 8, "x", "2020-01-01T00:00:00", true⟩] 1 true =
      ([⟨1, 7, 8, "x", "2020-01-01T00:00:00", true⟩], false) := by
  have h := C3_completed_never_redelivered
    [⟨1, 9, "call", "2024-01-01 09:00:00", true, false⟩]
    (civilToDays 2024 1 1 * usPerDay + 10 * usPerHour) (fun _ => true)
    ⟨1, 9, "call", "2024-01-01 09:00:00", true, false⟩ (by decide) rfl (by decide)
  exact ⟨h.1, h.2 [⟨1, 7, 8, "x", "2020-01-01T00:00:00", true⟩] 1 true
    ⟨1, 7, 8, "x", "2020-01-01T00:00:00", true⟩ (by decide) rfl⟩

/-! ## Claim C4: failed delivery is not marked completed and is retried -/

/-- Claim C4 (confirmed): when the outbound send for a due reminder
fails during a sweep, the pass leaves the reminder's row untouched —
still not completed, still active — and does not log a delivery; the
reminder is again a candidate of the next pass, and a pass whose sends
succeed delivers it.  In the timer draft, `_job_callback` likewise
leaves the row not-completed and unsent when the send fails. -/
theorem C4_failed_send_not_completed_retried (db : List BotReminder) (now : Nat)
    (sendOk : Nat → Bool) (r : BotReminder) (t : Nat) (hmem : r ∈ db)
    (hact : r.is_active = true) (hcomp : r.is_completed = false)
    (hwin : strLe r.time (strftimeDT (now + usPerHour)) = true)
    (hp : strptimeYMDHMS r.time.toList = some t) (hdue : t ≤ now)
    (hfail : sendOk r.id = false)
    (hall : ∀ x ∈ db, (strptimeYMDHMS x.time.toList).isSome = true) :
    r ∈ (check_reminders db now sendOk).1 ∧
    r.id ∉ (check_reminders db now sendOk).2 ∧
    r.id ∈ (check_reminders (check_reminders db now sendOk).1 now (fun _ => true)).2 ∧
    (∀ (db2 : List LifeRem) (i : Nat) (rem : LifeRem),
      db2.find? (fun x => x.id == i) = some rem → rem.completed = false →
        job_callback db2 i false = (db2, false)) := by
  have hpres : r ∈ (check_reminders db now sendOk).1 :=
    sweepGo_preserves hfail hmem
  refine ⟨hpres, ?_, ?_, ?_⟩
  · intro hin
    rcases sweepGo_log_origin hin with hl | ⟨x, _, _, hsi⟩
    · exact absurd hl (List.not_mem_nil _)
    · rw [hfail] at hsi
      exact Bool.false_ne_true hsi
  · unfold check_reminders
    refine sweepGo_delivers ?_ (fun _ => rfl) ?_ hp hdue
    · intro x hx
      have hxdb := (mem_get_active.mp hx).1
      rcases sweepGo_db_times hxdb with ⟨y, hy, hxy⟩
      rw [hxy]
      exact hall y hy
    · exact mem_get_active.mpr ⟨hpres, hact, hcomp, hwin⟩
  · intro db2 i rem hf hc
    simp [job_callback, hf, hc]

/-- Claim C4, witness: a due reminder whose send fails stays in the
table not-completed and undelivered, and the all-success pass right
after delivers it; the timer callback on a failed send changes
nothing. -/
theorem C4_witness :
    (⟨1, 9, "call", "2024-01-01 09:00:00", false, true⟩ : BotReminder) ∈
      (check_reminders [⟨1, 9, "call", "2024-01-01 09:00:00", false, true⟩]
        (civilToDays 2024 1 1 * usPerDay + 10 * usPerHour) (fun _ => false)).1 ∧
    (1 : Nat) ∉ (check_reminders [⟨1, 9, "call", "2024-01-01 09:00:00", false, true⟩]
        (civilToDays 2024 1 1 * usPerDay + 10 * usPerHour) (fun _ => false)).2 ∧
    (1 : Nat) ∈ (check_reminders
        (check_reminders [⟨1, 9, "call", "2024-01-01 09:00:00", false, true⟩]
          (civilToDays 2024 1 1 * usPerDay + 10 * usPerHour) (fun _ => false)).1
        (civilToDays 2024 1 1 * usPerDay + 10 * usPerHour) (fun _ => true)).2 := by
  have h := C4_failed_send_not_completed_retried
    [⟨1, 9, "call", "2024-01-01 09:00:00", false, true⟩]
    (civilToDays 2024 1 1 * usPerDay + 10 * usPerHour) (fun _ => false)
    ⟨1, 9, "call", "2024-01-01 09:00:00", false, true⟩
    (civilToDays 2024 1 1 * usPerDay + 9 * usPerHour)
    (by decide) rfl rfl (by decide) (by decide) (by decide) rfl (by decide)
  exact ⟨h.1, h.2.1, h.2.2.1⟩

/-! ## Claim C2: the bare HH:MM rollover rule -/

theorem dChar_isDigit {x : Nat} (hx : x ≤ 9) : (dChar x).isDigit = true := by
  interval_cases x <;> decide

theorem digitVal_dChar {x : Nat} (hx : x ≤ 9) : digitVal (dChar x) = x := by
  interval_cases x <;> decide

theorem ch_beq_dChar {x : Nat} (hx : x ≤ 9) : (('ч' == dChar x) : Bool) = false := by
  interval_cases x <;> decide

theorem colon_beq_dChar {x : Nat} (hx : x ≤ 9) : ((':' == dChar x) : Bool) = false := by
  interval_cases x <;> decide

/-- `strptime('%H:%M')` accepts the canonical two-digit rendering of a
valid clock time and returns exactly its hour and minute. -/
theorem strptimeHM_formatHM {h m : Nat} (hh : h ≤ 23) (hm : m ≤ 59) :
    strptimeHM (formatHM h m) = some (h, m) := by
  have h1 : h / 10 ≤ 9 := by omega
  have h2 : h % 10 ≤ 9 := by omega
  have h3 : m / 10 ≤ 9 := by omega
  have h4 : m % 10 ≤ 9 := by omega
  have e1 : h / 10 * 10 + h % 10 = h := by omega
  have e2 : m / 10 * 10 + m % 10 = m := by omega
  simp [strptimeHM, formatHM, takeDigits2, dChar_isDigit h1, dChar_isDigit h2,
    dChar_isDigit h3, dChar_isDigit h4, digitVal_dChar h1, digitVal_dChar h2,
    digitVal_dChar h3, digitVal_dChar h4, e1, e2, hh, hm]

theorem cheres_not_prefix_formatHM {h m : Nat} (hh : h ≤ 23) :
    kwCheres.isPrefixOf (formatHM h m) = false := by
  have h1 : h / 10 ≤ 9 := by omega
  have hk : kwCheres = 'ч' :: "ерез".toList := by decide
  rw [hk]
  show (('ч' == dChar (h / 10)) && _) = false
  rw [ch_beq_dChar h1, Bool.false_and]

theorem formatHM_contains_colon {h m : Nat} (hh : h ≤ 23) :
    (formatHM h m).contains ':' = true := by
  have h1 : h / 10 ≤ 9 := by omega
  have h2 : h % 10 ≤ 9 := by omega
  simp [formatHM, List.contains_cons, colon_beq_dChar h1, colon_beq_dChar h2]

/-- Claim C2 (corrected): for a bare `HH:MM` input (five characters,
parsed by `strptime('%H:%M')`), the parser returns today at HH:MM and
rolls forward one day exactly when that moment is strictly BEFORE now;
when today-at-HH:MM equals now to the microsecond (now sits exactly on
that minute), the result is now itself — not rolled forward, hence not
strictly in the future.  (The claim as frozen says the equal case also
rolls; `C2_equal_now_counterexample` shows it does not.) -/
theorem C2_hhmm_rolls_iff_strictly_before (now h m : Nat) (s : String) (hh : h ≤ 23)
    (hm : m ≤ 59) (hn : normChars s = formatHM h m) :
    parse_reminder_time now s =
      some (if now / usPerDay * usPerDay + h * usPerHour + m * usPerMinute < now then
              now / usPerDay * usPerDay + h * usPerHour + m * usPerMinute + usPerDay
            else now / usPerDay * usPerDay + h * usPerHour + m * usPerMinute) := by
  have hlen : (formatHM h m).length = 5 := rfl
  have hcmem : ':' ∈ formatHM h m := by simp [formatHM]
  simp [parse_reminder_time, hn, cheres_not_prefix_formatHM hh,
    formatHM_contains_colon hh, hcmem, hlen, strptimeHM_formatHM hh hm]

/-- Claim C2, witness: at 10:00 exactly, the input "18:30" is parsed as
today 18:30 with no rollover (it is still ahead), per the theorem. -/
theorem C2_witness :
    normChars "18:30" = formatHM 18 30 ∧
    parse_reminder_time (civilToDays 2024 5 15 * usPerDay + 10 * usPerHour) "18:30" =
      some (civilToDays 2024 5 15 * usPerDay + 18 * usPerHour + 30 * usPerMinute) := by
  constructor
  · decide
  · have h := C2_hhmm_rolls_iff_strictly_before
      (civilToDays 2024 5 15 * usPerDay + 10 * usPerHour) 18 30 "18:30"
      (by decide) (by decide) (by decide)
    rw [h]
    decide

/-- Claim C2, counterexample: when now is exactly 10:30:00.000000 and
the input is "10:30", the code returns now itself — the claim's
required rollover to tomorrow does not happen and the result is not
strictly in the future. -/
theorem C2_equal_now_counterexample :
    parse_reminder_time (civilToDays 2024 5 15 * usPerDay + 10 * usPerHour +
        30 * usPerMinute) "10:30" =
      some (civilToDays 2024 5 15 * usPerDay + 10 * usPerHour + 30 * usPerMinute) ∧
    (civilToDays 2024 5 15 * usPerDay + 10 * usPerHour + 30 * usPerMinute) ≠
      (civilToDays 2024 5 15 * usPerDay + 10 * usPerHour + 30 * usPerMinute) + usPerDay := by
  constructor
  · decide
  · decide

/-! ## Claim C9: the relative `через N <unit>` forms -/

/-- Claim C9 (corrected): for inputs the relative branch recognises
(normalised form starting with `через`, a second whitespace token with
at least one digit), the parser returns now + N·unit, where N is the
integer formed by CONCATENATING every digit character of the second
token — not the first maximal digit run, as the claim states (for a
well-formed all-digit token the two coincide; `C9_digit_run_counterexample`
separates them).  The unit is minutes when `минут` occurs anywhere in
the string, else hours when `час` occurs, else days on `день`/`дня`/`дней`. -/
theorem C9_relative_forms (now : Nat) (s : String) (tok : List Char)
    (hpre : kwCheres.isPrefixOf (normChars s) = true)
    (htok : (pySplit (normChars s)).get? 1 = some tok)
    (hdig : (tok.filter Char.isDigit).isEmpty = false) :
    (hasSub kwMinut (normChars s) = true →
      parse_reminder_time now s =
        some (now + digitsToNat (tok.filter Char.isDigit) * usPerMinute)) ∧
    (hasSub kwMinut (normChars s) = false → hasSub kwChas (normChars s) = true →
      parse_reminder_time now s =
        some (now + digitsToNat (tok.filter Char.isDigit) * usPerHour)) ∧
    (hasSub kwMinut (normChars s) = false → hasSub kwChas (normChars s) = false →
      (hasSub kwDen (normChars s) || hasSub kwDnya (normChars s) ||
        hasSub kwDney (normChars s)) = true →
      parse_reminder_time now s =
        some (now + digitsToNat (tok.filter Char.isDigit) * usPerDay)) := by
  have htok2 : (pySplit (normChars s))[1]? = some tok := by
    simpa [← List.get?_eq_getElem?] using htok
  have hne : tok.filter Char.isDigit ≠ [] := by
    intro hempty
    rw [hempty] at hdig
    simp at hdig
  have hdig2 : ¬∀ a ∈ tok, a.isDigit = false := by
    rcases List.exists_mem_of_ne_nil _ hne with ⟨a, ha⟩
    rcases List.mem_filter.mp ha with ⟨hat, had⟩
    intro hall
    rw [hall a hat] at had
    exact Bool.false_ne_true had
  refine ⟨?_, ?_, ?_⟩
  · intro hmin
    simp [parse_reminder_time, hpre, hmin, relAmount, htok2, hdig2]
  · intro hmin hchas
    simp [parse_reminder_time, hpre, hmin, hchas, relAmount, htok2, hdig2]
  · intro hmin hchas hden
    simp [parse_reminder_time, hpre, hmin, hchas, hden, relAmount, htok2, hdig2]

/-- Claim C9, witness: `через 30 минут` yields now + 30 minutes. -/
theorem C9_witness :
    kwCheres.isPrefixOf (normChars "через 30 минут") = true ∧
    (pySplit (normChars "через 30 минут")).get? 1 = some ['3', '0'] ∧
    parse_reminder_time 0 "через 30 минут" =
      some (0 + digitsToNat (['3', '0'].filter Char.isDigit) * usPerMinute) := by
  refine ⟨by decide, by decide, ?_⟩
  exact (C9_relative_forms 0 "через 30 минут" ['3', '0'] (by decide) (by decide)
    (by decide)).1 (by decide)

/-- Claim C9, counterexample: on `через 1x2 час` the code concatenates
the digits of the second token (`1x2` → 12) and yields now + 12 hours,
while the claim's first-maximal-digit-run rule (N = 1) demands
now + 1 hour. -/
theorem C9_digit_run_counterexample :
    parse_reminder_time 0 "через 1x2 час" = some (0 + 12 * usPerHour) ∧
    some (0 + 12 * usPerHour) ≠ some (0 + 1 * usPerHour) := by
  constructor
  · decide
  · decide

/-! ## Claim C1: the subscription-extension arithmetic -/

/-- Claim C1 (corrected): neither draft computes
`max(currentEnd, now) + duration`.  In database.py, whenever a
parseable stored end exists the new end is stored-end + 30·months days
— even when the stored end is already in the past (so an expired
subscriber gets less than now + duration, contradicting the claim);
only a missing row, NULL or empty end falls back to now + 30·months
days.  In the full-project draft the new end is unconditionally
now + days, discarding any remaining paid time. -/
theorem C1_extension_is_not_additive_from_max :
    (∀ (s : String) (d now months : Nat), strptimeDate s.toList = some d →
      db_update_subscription (some (some s)) now months =
        some (strftimeD (d * usPerDay + 30 * months * usPerDay))) ∧
    (∀ now months : Nat, db_update_subscription none now months =
      some (strftimeD (now + 30 * months * usPerDay))) ∧
    (∀ (db : List LifeUser) (uid days now : Nat),
      subscription_end_of (life_update_subscription db uid days now) uid =
        some (isoDT (secFloor (now + days * usPerDay)))) := by
  refine ⟨?_, ?_, ?_⟩
  · intro s d now months hp
    have hp2 : strptimeDate s.data = some d := hp
    by_cases hemp : s = ""
    · subst hemp
      have h0 : strptimeDate ("" : String).toList = none := by decide
      rw [h0] at hp
      exact Option.noConfusion hp
    · simp [db_update_subscription, hemp, hp, hp2]
  · intro now months
    simp [db_update_subscription]
  · intro db uid days now
    exact sub_end_update db uid days now

/-- Claim C1, counterexample: a subscriber whose stored end
2024-02-10 has already expired pays for one month on 2024-02-20; the
code writes 2024-03-11 (stored end + 30 days) where the claim's
`max(currentEnd, now) + 30 days` rule demands 2024-03-21. -/
theorem C1_expired_end_counterexample :
    db_update_subscription (some (some "2024-02-10"))
        (civilToDays 2024 2 20 * usPerDay) 1 = some "2024-03-11" ∧
    specExtendNewEnd (some (civilToDays 2024 2 10 * usPerDay))
        (civilToDays 2024 2 20 * usPerDay) (30 * usPerDay) =
      civilToDays 2024 3 21 * usPerDay ∧
    strftimeD (civilToDays 2024 3 21 * usPerDay) = "2024-03-21" ∧
    ("2024-03-11" : String) ≠ "2024-03-21" := by
  refine ⟨by decide, by decide, by decide, by decide⟩

end Budnek
